import Mathlib

/-!
Verification of `src/app/drawController.js` (dwv draw controller).

The scene tree (Konva) is embedded shallowly: a node is an inductive tree
carrying the attributes the controller reads and writes (id, name, visible,
className, stroke, fill, shadowColor, closed, text, and the out-of-band
`meta` side channel attached to text nodes).  A `ref` field models JS
object identity (two distinct node instances may otherwise be equal).
Mutating operations are state passing: they take the controller state and
return the new state; JS `TypeError` crashes (reading a property of
`undefined`) are modelled by `Option`.  `logger.warn` calls that the
claims mention are modelled as an explicit list of emitted messages.
External collaborators that live outside the translated file (Konva node
search, the position-index library, draw commands, string/colour utils)
are modelled from the spec where needed; each such definition says so in
its doc comment.
-/

/-- Annotation metadata attached to a text node as an out-of-band field:
a template expression and the quantification mapping used to expand it. -/
structure AnnMeta where
  textExpr : String
  quantification : List (String × String)
deriving DecidableEq, Repr

/-- The attributes of a scene node that the draw controller reads or
writes.  `ref` models JS object identity; `stroke`/`fill`/`shadowColor`
are `Option` because Konva getters may return `undefined`. -/
structure NodeAttrs where
  ref : Nat
  id : String
  name : String
  visible : Bool
  className : String
  stroke : Option String
  fill : Option String
  shadowColor : Option String
  closed : Bool
  text : String
  meta : AnnMeta
deriving DecidableEq, Repr

/-- A Konva scene node: attributes plus ordered children. -/
inductive KNode where
  | node (attrs : NodeAttrs) (children : List KNode)
deriving Repr

def KNode.attrs : KNode → NodeAttrs
  | .node a _ => a

def KNode.children : KNode → List KNode
  | .node _ cs => cs

def KNode.id (n : KNode) : String := n.attrs.id

def KNode.name (n : KNode) : String := n.attrs.name

def KNode.visible (n : KNode) : Bool := n.attrs.visible

def KNode.className (n : KNode) : String := n.attrs.className

def KNode.stroke (n : KNode) : Option String := n.attrs.stroke

def KNode.fill (n : KNode) : Option String := n.attrs.fill

def KNode.closed (n : KNode) : Bool := n.attrs.closed

def KNode.text (n : KNode) : String := n.attrs.text

def KNode.meta (n : KNode) : AnnMeta := n.attrs.meta

def KNode.withChildren : KNode → List KNode → KNode
  | .node a _, cs => .node a cs

def KNode.withVisible : KNode → Bool → KNode
  | .node a cs, v => .node { a with visible := v } cs

def KNode.withStroke : KNode → Option String → KNode
  | .node a cs, v => .node { a with stroke := v } cs

def KNode.withFill : KNode → Option String → KNode
  | .node a cs, v => .node { a with fill := v } cs

def KNode.withShadowColor : KNode → Option String → KNode
  | .node a cs, v => .node { a with shadowColor := v } cs

def KNode.withText : KNode → String → KNode
  | .node a cs, v => .node { a with text := v } cs

def KNode.withMeta : KNode → AnnMeta → KNode
  | .node a cs, v => .node { a with meta := v } cs

/-- Konva `container.add(node)`: appends a child. -/
def KNode.addChild (n : KNode) (c : KNode) : KNode :=
  n.withChildren (n.children ++ [c])

/-- `isNodeNameShape` (source line 57): the node's name is 'shape'. -/
def isNodeNameShape (node : KNode) : Bool :=
  node.name == "shape"

/-- `isNodeNameShapeExtra` (source line 67): name starts with 'shape-'. -/
def isNodeNameShapeExtra (node : KNode) : Bool :=
  node.name.startsWith "shape-"

/-- `isNodeNameLabel` (source line 77): the node's name is 'label'. -/
def isNodeNameLabel (node : KNode) : Bool :=
  node.name == "label"

/-- `isPositionNode` (source line 87): the node's name is 'position-group'. -/
def isPositionNode (node : KNode) : Bool :=
  node.name == "position-group"

/-- `isNodeWithId` (source line 103): node identifier equality test. -/
def isNodeWithId (id : String) (node : KNode) : Bool :=
  node.id == id

/-- `canNodeChangeColour` (source line 115): name is neither 'anchor' nor
'label'. -/
def canNodeChangeColour (node : KNode) : Bool :=
  node.name != "anchor" && node.name != "label"

/-- The draw controller state: the Konva layer it owns and the current
position group id.  `nextRef` is the model's fresh-identity counter for
nodes the controller creates. -/
structure DrawController where
  konvaLayer : KNode
  currentPosGroupId : String
  nextRef : Nat
deriving Repr

/-- Konva `Group` defaults for a node freshly created by the controller. -/
def newGroupAttrs (ref : Nat) (id : String) (visible : Bool) : NodeAttrs :=
  { ref := ref, id := id, name := "position-group", visible := visible,
    className := "Group", stroke := none, fill := none, shadowColor := none,
    closed := false, text := "", meta := ⟨"", []⟩ }

/-- `DrawController.getCurrentPosGroup` (source lines 169-191): filters the
layer's direct children by the current position group id; one match is
returned as is; zero matches create, append and return a fresh
'position-group' node with explicit visibility; otherwise a warning is
logged and `null` (here `none`) is returned.  Result: new state, the
returned group, and the emitted log messages. -/
def DrawController.getCurrentPosGroup (c : DrawController) :
    DrawController × Option KNode × List String :=
  match c.konvaLayer.children.filter
      (fun node => node.id == c.currentPosGroupId) with
  | [posGroup] => (c, some posGroup, [])
  | [] =>
    let posGroup := KNode.node
      (newGroupAttrs c.nextRef c.currentPosGroupId true) []
    ({ c with konvaLayer := c.konvaLayer.addChild posGroup,
              nextRef := c.nextRef + 1 },
      some posGroup, [])
  | _ => (c, none, ["Unexpected number of draw position groups."])

/-- Decimal digit characters of a natural number, most significant first:
the JS `Number`-to-string coercion for the nonnegative integers used as
position components. -/
def natDecChars (n : Nat) : List Char :=
  if n < 10 then [Nat.digitChar n]
  else natDecChars (n / 10) ++ [Nat.digitChar (n % 10)]
termination_by n
decreasing_by
  rename_i h
  exact Nat.div_lt_self (by omega) (by omega)

/-- JS number-to-string coercion (`'' + n`) for a natural number. -/
def jsNatToString (n : Nat) : String :=
  ⟨natDecChars n⟩

/-- Modelled from the spec: `Index.toStringId` of the external
position-index library (`src/math/index.js` is not part of the translated
source).  Builds the key from the given dimension indices and their
position values, concatenated with stable separators. -/
def toStringId (index : List Nat) (dims : List Nat) : String :=
  String.intercalate "_"
    (dims.map (fun d =>
      "#" ++ jsNatToString d ++ "-" ++ jsNatToString (index.getD d 0)))

/-- `DrawController.activateDrawLayer` (source lines 221-245): stores the
position group id computed from the scroll index and every dimension
index from 3 upward, then sets each direct position-group child visible
exactly when its id equals the new key.  The final `konvaLayer.draw()` is
an external redraw request with no tree effect. -/
def DrawController.activateDrawLayer (c : DrawController) (index : List Nat)
    (scrollIndex : Nat) : DrawController :=
  let dims := scrollIndex :: (List.range index.length).drop 3
  let key := toStringId index dims
  { c with
      currentPosGroupId := key,
      konvaLayer := c.konvaLayer.withChildren
        (c.konvaLayer.children.map (fun n =>
          if isPositionNode n then n.withVisible (n.id == key) else n)) }

/-- A position (`Point`): multi-dimensional components.  The components
that contribute to draw position group ids are modelled as natural
numbers (slice and frame indices). -/
structure Point where
  values : List Nat
deriving DecidableEq, Repr

/-- `Point.get(i)` of the external geometry library: the component at
index `i`.  The default 0 stands for JS `undefined` on out-of-range
access; the claims only use in-range indices. -/
def Point.get (p : Point) (i : Nat) : Nat :=
  p.values.getD i 0

def Point.length (p : Point) : Nat :=
  p.values.length

/-- `getDrawPositionGroupId` (source lines 26-31): key built from the
component at index 2 and, when the position has length 4, the component
at index 3, else 0. -/
def getDrawPositionGroupId (currentPosition : Point) : String :=
  let sliceNumber := currentPosition.get 2
  let frameNumber :=
    if currentPosition.length == 4 then currentPosition.get 3 else 0
  "slice-" ++ jsNatToString sliceNumber ++ "_frame-"
    ++ jsNatToString frameNumber

/-- First index of a character in a character list
(JS `String.prototype.indexOf`, found part). -/
def charIdx : List Char → Char → Option Nat
  | [], _ => none
  | c :: cs, ch => if c == ch then some 0 else (charIdx cs ch).map (· + 1)

/-- JS `String.prototype.indexOf` for a single character: first index,
or -1 when absent. -/
def jsIndexOfChar (s : String) (ch : Char) : Int :=
  match charIdx s.data ch with
  | some i => Int.ofNat i
  | none => -1

/-- JS `String.prototype.substring(start, end)`: clamps both arguments
into range (negative values to 0) and swaps them when start exceeds
end. -/
def jsSubstring (s : String) (a b : Int) : String :=
  let n := s.data.length
  let a' := min a.toNat n
  let b' := min b.toNat n
  ⟨(s.data.take (max a' b')).drop (min a' b')⟩

/-- JS `String.prototype.substring(start)`: from `start` to the end. -/
def jsSubstringFrom (s : String) (a : Int) : String :=
  jsSubstring s a (Int.ofNat s.data.length)

/-- The `{sliceNumber, frameNumber}` object returned by
`getPositionFromGroupId`. -/
structure SliceFrame where
  sliceNumber : String
  frameNumber : String
deriving DecidableEq, Repr

/-- `getPositionFromGroupId` (source lines 40-49): splits the id at the
first underscore; `substring(6, sep)` recovers the slice digits and
`substring(sep + 7)` the frame digits.  The warning emitted on a badly
formed id (no underscore) is an external log effect with no influence on
the returned object. -/
def getPositionFromGroupId (groupId : String) : SliceFrame :=
  let sepIndex := jsIndexOfChar groupId '_'
  { sliceNumber := jsSubstring groupId 6 sepIndex
    frameNumber := jsSubstringFrom groupId (sepIndex + 7) }

/-- JS `s.indexOf(sub) !== -1`: substring occurrence test (used with the
nonempty patterns 'triangle' and 'arc'). -/
def jsContains (s sub : String) : Bool :=
  (s.splitOn sub).length != 1

/-- Modelled from the spec: `getIndexFromStringId` of the external
position-index library decodes a position key back into its dimension
values; it is consumed here only to render the display position. -/
def getIndexFromStringId (s : String) : List Nat :=
  (s.splitOn "_").map (fun part =>
    (((part.splitOn "-").getD 1 "0").toNat?).getD 0)

/-- Modelled from the spec: display rendering (`position.toString()`) of
a decoded position. -/
def indexToDisplayString (vals : List Nat) : String :=
  "(" ++ String.intercalate "," (vals.map jsNatToString) ++ ")"

/-- One entry of the `getDrawDisplayDetails` result:
`{id, position, type, color, meta}`. -/
structure DrawDetail where
  id : String
  position : String
  type : String
  color : Option String
  meta : AnnMeta
deriving DecidableEq, Repr

/-- The body of the `getDrawDisplayDetails` inner loop (source lines
259-290) for one annotation group: the primary shape, the label and the
label's first child are looked up (a JS `TypeError` on their absence is
`none`); the type starts from the shape's class name; a 'Line' is
reclassified from the closed flag and the first auxiliary decoration's
name; 'Rect' is renamed 'Rectangle'; the record is assembled from the
group id, the position display string, the shape stroke and the text
meta. -/
def drawDetailOfGroup (position : String) (group : KNode) :
    Option DrawDetail :=
  match group.children.filter isNodeNameShape with
  | [] => none
  | shape :: _ =>
    match group.children.filter isNodeNameLabel with
    | [] => none
    | label :: _ =>
      match label.children with
      | [] => none
      | text :: _ =>
        let type0 := shape.className
        let type1 :=
          if type0 == "Line" then
            if shape.closed then "Roi"
            else
              match group.children.filter isNodeNameShapeExtra with
              | [] => type0
              | extra0 :: _ =>
                if jsContains extra0.name "triangle" then "Arrow"
                else if jsContains extra0.name "arc" then "Protractor"
                else "Ruler"
          else type0
        let type2 := if type1 == "Rect" then "Rectangle" else type1
        some { id := group.id, position := position, type := type2,
               color := shape.stroke, meta := text.meta }

/-- Inner loop of `getDrawDisplayDetails` over the annotation groups of
one position group. -/
def displayDetailsGroups (position : String) :
    List KNode → Option (List DrawDetail)
  | [] => some []
  | g :: gs =>
    match drawDetailOfGroup position g, displayDetailsGroups position gs with
    | some d, some ds => some (d :: ds)
    | _, _ => none

/-- Outer loop of `getDrawDisplayDetails` over the layer's top-level
groups.  The loop body only reads nodes; the returned list of visited
groups mirrors the source collection untouched. -/
def displayDetailsList : List KNode → List KNode × Option (List DrawDetail)
  | [] => ([], some [])
  | g :: gs =>
    let d1 := displayDetailsGroups
      (indexToDisplayString (getIndexFromStringId g.id)) g.children
    let r := displayDetailsList gs
    (g :: r.1,
      match d1, r.2 with
      | some a, some b => some (a ++ b)
      | _, _ => none)

/-- `DrawController.getDrawDisplayDetails` (source lines 253-293): walks
every top-level group and each of its annotation groups, assembling the
display details; contains no write to the scene tree.  Result: the layer
after the walk and the assembled list (`none` models a JS `TypeError` on
a malformed group). -/
def DrawController.getDrawDisplayDetails (c : DrawController) :
    KNode × Option (List DrawDetail) :=
  let r := displayDetailsList c.konvaLayer.children
  (c.konvaLayer.withChildren r.1, r.2)

/-- The '.anchor' Konva selector: node name is 'anchor'. -/
def isAnchorNode (n : KNode) : Bool :=
  n.name == "anchor"

/-- The '.text' Konva selector: node name is 'text'. -/
def isTextNode (n : KNode) : Bool :=
  n.name == "text"

/-- All descendants matching `p`, in depth-first preorder: Konva
`container.find(selector)` over the children of a container. -/
def findAllIn (p : KNode → Bool) : List KNode → List KNode
  | [] => []
  | KNode.node a kids :: cs =>
    (if p (KNode.node a kids) then [KNode.node a kids] else [])
      ++ findAllIn p kids ++ findAllIn p cs
termination_by l => sizeOf l

/-- Remove every subtree whose root matches `p`: the effect of Konva
`find(selector)` followed by `remove()` on each hit — removing a hit
detaches its whole subtree, and hits nested inside other hits are gone
with their ancestor. -/
def removeAllIn (p : KNode → Bool) : List KNode → List KNode
  | [] => []
  | KNode.node a kids :: cs =>
    if p (KNode.node a kids) then removeAllIn p cs
    else KNode.node a (removeAllIn p kids) :: removeAllIn p cs
termination_by l => sizeOf l

/-- The `getDrawStoreDetails` inner loop body (source lines 312-326) for
one annotation group: remove every anchor descendant, collect the text
descendants, log when there is not exactly one, and record the first
text's meta under the group's id (reading it with no text left is a JS
`TypeError`, modelled `none`). -/
def storeDetailOfGroup (group : KNode) :
    Option (KNode × (String × AnnMeta) × List String) :=
  let stripped := group.withChildren (removeAllIn isAnchorNode group.children)
  let texts := findAllIn isTextNode stripped.children
  let logs := if texts.length != 1
    then ["There should not be more than one text per shape."] else []
  match texts with
  | [] => none
  | t :: _ => some (stripped, (stripped.id, t.meta), logs)

/-- Inner loop of `getDrawStoreDetails` over one position group's
annotation groups. -/
def storeDetailsGroups :
    List KNode → Option (List KNode × List (String × AnnMeta) × List String)
  | [] => some ([], [], [])
  | g :: gs =>
    match storeDetailOfGroup g, storeDetailsGroups gs with
    | some (g1, d1, l1), some (gs1, ds, ls) =>
      some (g1 :: gs1, d1 :: ds, l1 ++ ls)
    | _, _ => none

/-- Outer loop of `getDrawStoreDetails` over the layer children: only
position-group children are visited (`getChildren(isPositionNode)`);
other children pass through untouched. -/
def storeDetailsList :
    List KNode → Option (List KNode × List (String × AnnMeta) × List String)
  | [] => some ([], [], [])
  | pg :: pgs =>
    if isPositionNode pg then
      match storeDetailsGroups pg.children, storeDetailsList pgs with
      | some (kids1, ds1, ls1), some (pgs1, ds2, ls2) =>
        some (pg.withChildren kids1 :: pgs1, ds1 ++ ds2, ls1 ++ ls2)
      | _, _ => none
    else
      match storeDetailsList pgs with
      | some (pgs1, ds2, ls2) => some (pg :: pgs1, ds2, ls2)
      | none => none

/-- `DrawController.getDrawStoreDetails` (source lines 301-330): for
every position group, for every annotation group, remove the anchors from
the live tree, check the text count, and record `{meta}` under the
group's id.  Result: the mutated controller, the recorded details in
iteration order (the JS object keys them by id), and the emitted log
messages. -/
def DrawController.getDrawStoreDetails (c : DrawController) :
    Option (DrawController × List (String × AnnMeta) × List String) :=
  match storeDetailsList c.konvaLayer.children with
  | some (kids, ds, ls) =>
    some ({ c with konvaLayer := c.konvaLayer.withChildren kids }, ds, ls)
  | none => none

/-- Spec-side description of the store query's frame effect: strip every
anchor-named subtree from the whole scene tree and change nothing else. -/
def stripAnchors (n : KNode) : KNode :=
  n.withChildren (removeAllIn isAnchorNode n.children)

/-- Spec-side description of one recorded entry: the meta of the group's
first text descendant after anchor removal. -/
def metaOfFirstText (g : KNode) : AnnMeta :=
  match findAllIn isTextNode (removeAllIn isAnchorNode g.children) with
  | [] => ⟨"", []⟩
  | t :: _ => t.meta

/-- Modelled from the spec: `getShadowColour` of the external colour
utilities — derives a shadow colour from a colour. -/
def getShadowColour (colour : String) : String :=
  "shadow-" ++ colour

/-- All-occurrence substring replacement via split and join. -/
def jsReplaceAll (s pat rep : String) : String :=
  String.intercalate rep (s.splitOn pat)

/-- Modelled from the spec: `replaceFlags` of the external string
utilities — expands the label template by substituting each
quantification entry's `\x7bname\x7d` flag with its value. -/
def replaceFlags (textExpr : String)
    (quantification : List (String × String)) : String :=
  quantification.foldl
    (fun s kv => jsReplaceAll s ("\x7b" ++ kv.1 ++ "\x7d") kv.2) textExpr

/-- The `drawDetails` argument of `updateDraw`: id, colour, optional new
metadata. -/
structure DrawDetails where
  id : String
  color : String
  meta : Option AnnMeta
deriving Repr

/-- The `updateDraw` shape and shape-extra recolouring (source lines
413-427) expressed per child: primary shapes get the new stroke; extras
get the stroke when they have one, else the fill when they have one;
other children are untouched. -/
def updateDrawColorChild (d : DrawDetails) (n : KNode) : KNode :=
  if isNodeNameShape n then n.withStroke (some d.color)
  else if isNodeNameShapeExtra n then
    if n.stroke.isSome then n.withStroke (some d.color)
    else if n.fill.isSome then n.withFill (some d.color)
    else n
  else n

/-- One step of the `updateDraw` label-children loop (source lines
432-446): every kid is refilled with the colour; a 'Text' kid also gets
the shadow colour and, when new meta is supplied, the stored meta, the
re-expanded text, and the pending label-visibility flag. -/
def updateLabelKid (d : DrawDetails) (shadow : String)
    (acc : List KNode × Option Bool) (kid : KNode) :
    List KNode × Option Bool :=
  let kid1 := kid.withFill (some d.color)
  if kid1.className == "Text" then
    let kid2 := kid1.withShadowColor (some shadow)
    match d.meta with
    | some m =>
      let kid3 := (kid2.withMeta m).withText
        (replaceFlags m.textExpr m.quantification)
      (acc.1 ++ [kid3], some (m.textExpr.length != 0))
    | none => (acc.1 ++ [kid2], acc.2)
  else (acc.1 ++ [kid1], acc.2)

/-- The image of one label kid under the `updateLabelKid` loop step,
used to characterize the fold. -/
def updateLabelKidMap (d : DrawDetails) (shadow : String) (kid : KNode) :
    KNode :=
  let kid1 := kid.withFill (some d.color)
  if kid1.className == "Text" then
    let kid2 := kid1.withShadowColor (some shadow)
    match d.meta with
    | some m =>
      (kid2.withMeta m).withText (replaceFlags m.textExpr m.quantification)
    | none => kid2
  else kid1

/-- The `updateDraw` label update (source lines 429-446): fold the kid
loop over the label's children; the visibility set inside the loop (only
when new meta met a text kid) lands on the label itself. -/
def updateLabelNode (d : DrawDetails) (label : KNode) : KNode :=
  let shadowColor := getShadowColour d.color
  let r := label.children.foldl (updateLabelKid d shadowColor) ([], none)
  (label.withChildren r.1).withVisible (r.2.getD label.visible)

/-- Replace the first direct child satisfying `p` by its image under `f`;
the flag tells whether a hit was found. -/
def updateFirstShallow (p : KNode → Bool) (f : KNode → KNode) :
    List KNode → List KNode × Bool
  | [] => ([], false)
  | c :: cs =>
    if p c then (f c :: cs, true)
    else
      let r := updateFirstShallow p f cs
      (c :: r.1, r.2)

/-- The `updateDraw` per-group mutation (source lines 413-446): recolour
the shapes and extras, then update the first 'label' child in place;
dereferencing a missing label is a JS `TypeError` (`none`). -/
def updateGroup (d : DrawDetails) (g : KNode) : Option KNode :=
  let colored := g.children.map (updateDrawColorChild d)
  match updateFirstShallow isNodeNameLabel (updateLabelNode d) colored with
  | (cs1, true) => some (g.withChildren cs1)
  | (_, false) => none

/-- Konva `findOne(selector)`: the first node in depth-first preorder
among the descendants satisfying `p`. -/
def findOneIn (p : KNode → Bool) : List KNode → Option KNode
  | [] => none
  | KNode.node a kids :: cs =>
    if p (KNode.node a kids) then some (KNode.node a kids)
    else
      match findOneIn p kids with
      | some r => some r
      | none => findOneIn p cs
termination_by l => sizeOf l

/-- In-place mutation of the first node in depth-first preorder
satisfying `p`: the pure account of Konva `findOne` followed by mutating
the found node; `f` may fail (JS crash inside the mutation). -/
def updateFirstIn (p : KNode → Bool) (f : KNode → Option KNode) :
    List KNode → Option (List KNode × Bool)
  | [] => some ([], false)
  | KNode.node a kids :: cs =>
    if p (KNode.node a kids) then
      match f (KNode.node a kids) with
      | none => none
      | some c1 => some (c1 :: cs, true)
    else
      match updateFirstIn p f kids with
      | none => none
      | some (kids1, true) => some (KNode.node a kids1 :: cs, true)
      | some (_, false) =>
        match updateFirstIn p f cs with
        | none => none
        | some (cs1, fl) => some (KNode.node a kids :: cs1, fl)
termination_by l => sizeOf l

/-- `DrawController.updateDraw` (source lines 404-450): find the group by
id (log and return unchanged when absent), recolour its shapes, extras
and label children, and update meta, text and label visibility when new
meta is supplied.  The final `draw()` is an external redraw request. -/
def DrawController.updateDraw (c : DrawController)
    (drawDetails : DrawDetails) : Option (DrawController × List String) :=
  match updateFirstIn (fun n => n.id == drawDetails.id)
      (updateGroup drawDetails) c.konvaLayer.children with
  | none => none
  | some (cs1, true) =>
    some ({ c with konvaLayer := c.konvaLayer.withChildren cs1 }, [])
  | some (_, false) =>
    some (c, ["[updateDraw] Cannot find group with id: " ++ drawDetails.id])

def KNode.ref (n : KNode) : Nat :=
  n.attrs.ref

/-- The `setDrawings` details application (source lines 381-391): look up
the group's details by id (a missing entry is a JS `TypeError` on
`details.meta`), then replace the label text's meta and re-expand its
text — `Konva.Label.getText()` returns the label's text child, and a
missing label or text is again a `TypeError`. -/
def applyDrawingDetails (dd? : Option (List (String × AnnMeta)))
    (stateGroup : KNode) : Option KNode :=
  match dd? with
  | none => some stateGroup
  | some dd =>
    match dd.find? (fun kv => kv.1 == stateGroup.id) with
    | none => none
    | some kv =>
      match stateGroup.children.filter isNodeNameLabel with
      | [] => none
      | label :: _ =>
        match label.children.filter (fun k => k.className == "Text") with
        | [] => none
        | _ :: _ =>
          let label1 := label.withChildren
            ((updateFirstShallow (fun k => k.className == "Text")
              (fun text => (text.withMeta kv.2).withText
                (replaceFlags kv.2.textExpr kv.2.quantification))
              label.children).1)
          some (stateGroup.withChildren
            ((updateFirstShallow isNodeNameLabel (fun _ => label1)
              stateGroup.children).1))

/-- The `setDrawings` inner loop (source lines 365-395) over one state
position group's annotation groups: each is moved over in order (always
the first remaining child, since re-parenting removes it from the
source); the primary shape is dereferenced for the command's class name
(a `TypeError` when absent), the details are applied, and the draw group
command is executed — modelled from the spec: `DrawGroupCommand.execute`
re-parents the group under its position group, which the caller has
already done, so re-adding a node to its current parent leaves the tree
unchanged. -/
def setDrawingsKids (dd? : Option (List (String × AnnMeta))) :
    List KNode → Option (List KNode)
  | [] => some []
  | kid :: rest =>
    match kid.children.filter isNodeNameShape with
    | [] => none
    | _ :: _ =>
      match applyDrawingDetails dd? kid, setDrawingsKids dd? rest with
      | some kid1, some rest1 => some (kid1 :: rest1)
      | _, _ => none

/-- One iteration of the `setDrawings` outer loop (source lines 349-396):
find the live position group by id, or create it with `visible: false`
and append it to the layer; then move the state kids into it. -/
def setDrawingsPos (layer : KNode) (nextRef : Nat)
    (dd? : Option (List (String × AnnMeta))) (spg : KNode) :
    Option (KNode × Nat) :=
  match setDrawingsKids dd? spg.children with
  | none => none
  | some moved =>
    match layer.children.filter (isNodeWithId spg.id) with
    | _ :: _ =>
      some (layer.withChildren
        ((updateFirstShallow (isNodeWithId spg.id)
          (fun pg => pg.withChildren (pg.children ++ moved))
          layer.children).1), nextRef)
    | [] =>
      some (layer.addChild
        (KNode.node (newGroupAttrs nextRef spg.id false) moved),
        nextRef + 1)

/-- The `setDrawings` outer loop over the incoming position groups. -/
def setDrawingsLoop (dd? : Option (List (String × AnnMeta))) :
    List KNode → KNode → Nat → Option (KNode × Nat)
  | [], layer, nextRef => some (layer, nextRef)
  | spg :: rest, layer, nextRef =>
    match setDrawingsPos layer nextRef dd? spg with
    | none => none
    | some (layer1, ref1) => setDrawingsLoop dd? rest layer1 ref1

/-- `DrawController.setDrawings` (source lines 341-397): deserialize the
incoming scene (`Konva.Node.create` is the external deserializer — the
model receives the already-parsed detached tree) and reconcile each
incoming position group into the live layer.  The command callbacks are
external effects. -/
def DrawController.setDrawings (c : DrawController) (stateLayer : KNode)
    (drawingsDetails : Option (List (String × AnnMeta))) :
    Option DrawController :=
  match setDrawingsLoop drawingsDetails
      (stateLayer.children.filter isPositionNode) c.konvaLayer c.nextRef with
  | none => none
  | some (layer1, ref1) =>
    some { c with konvaLayer := layer1, nextRef := ref1 }

/-- Modelled from the spec: `getShapeDisplayName` of the external draw
commands — a user-facing name derived from the shape, carried only for
undo-history labeling with no structural effect; `none` stands for JS
`undefined` (no primary shape), for which the helper falls back to its
default name. -/
def getShapeDisplayName (shape : Option KNode) : String :=
  match shape with
  | some s => s.className
  | none => "shape"

/-- Remove the first node in depth-first preorder satisfying `p` from its
parent (Konva `node.remove()` on the node `find` located); the flag tells
whether a hit was found. -/
def removeFirstIn (p : KNode → Bool) : List KNode → List KNode × Bool
  | [] => ([], false)
  | KNode.node a kids :: cs =>
    if p (KNode.node a kids) then (cs, true)
    else
      match removeFirstIn p kids with
      | (kids1, true) => (KNode.node a kids1 :: cs, true)
      | (_, false) =>
        match removeFirstIn p cs with
        | (cs1, fl) => (KNode.node a kids :: cs1, fl)
termination_by l => sizeOf l

/-- Modelled from the spec: `DeleteGroupCommand.execute` of the external
draw commands — detaches the group from the tree (`group.remove()`); the
display name and the callbacks are external labeling and notification
with no further tree effect. -/
def deleteGroupCommandExecute (layer : KNode) (g : KNode) : KNode :=
  layer.withChildren (removeFirstIn (fun n => n.ref == g.ref)
    layer.children).1

/-- `DrawController.deleteDrawGroup` (source lines 460-470): compute the
display name from the first shape child (labeling only), then construct
and execute the delete command; the callbacks are external effects. -/
def DrawController.deleteDrawGroup (c : DrawController) (group : KNode) :
    DrawController :=
  let shapeDisplayName :=
    getShapeDisplayName (group.children.filter isNodeNameShape).head?
  let _ := shapeDisplayName
  { c with konvaLayer := deleteGroupCommandExecute c.konvaLayer group }

/-- `DrawController.deleteDraws` (source lines 500-505): Konva
`getChildren()` without a filter returns the live children collection and
the delete command's `remove()` splices the deleted group out of it, so
the `while (groups.length)` loop repeatedly deletes the first remaining
top-level group until none remain. -/
def DrawController.deleteDraws (c : DrawController) : DrawController :=
  match h : c.konvaLayer.children with
  | [] => c
  | g :: _ => DrawController.deleteDraws (c.deleteDrawGroup g)
termination_by c.konvaLayer.children.length
decreasing_by
  cases g with
  | node a kids =>
    cases hl : c.konvaLayer with
    | node la lkids =>
      rw [hl] at h
      simp only [KNode.children] at h
      simp [DrawController.deleteDrawGroup, deleteGroupCommandExecute,
        hl, KNode.children, KNode.withChildren, removeFirstIn, h,
        KNode.ref, KNode.attrs]

-- ===================================================================
-- Concrete sample inputs used by witnesses and counterexamples
-- ===================================================================

/-- A plain attribute record for building concrete sample nodes. -/
def sampleAttrs (ref : Nat) (id nm : String) : NodeAttrs :=
  { ref := ref, id := id, name := nm, visible := true, className := "Group",
    stroke := none, fill := none, shadowColor := none, closed := false,
    text := "", meta := ⟨"", []⟩ }

/-- Layer root for the C1 witness: one position-group child holding the
active key. -/
def layerC1w : KNode :=
  KNode.node (sampleAttrs 0 "" "Layer")
    [KNode.node (sampleAttrs 1 "slice-0_frame-0" "position-group") []]

def ctrlC1w : DrawController :=
  { konvaLayer := layerC1w, currentPosGroupId := "slice-0_frame-0",
    nextRef := 10 }

/-- Layer root for the C1 counterexample: the only child carrying the
active key is a 'shape' node, not a position-group. -/
def layerC1c : KNode :=
  KNode.node (sampleAttrs 0 "" "Layer")
    [KNode.node (sampleAttrs 1 "slice-1_frame-0" "shape") []]

def ctrlC1c : DrawController :=
  { konvaLayer := layerC1c, currentPosGroupId := "slice-1_frame-0",
    nextRef := 10 }

/-- Layer root for C2: two direct position-group children share the
active key. -/
def layerC2 : KNode :=
  KNode.node (sampleAttrs 0 "" "Layer")
    [KNode.node (sampleAttrs 1 "slice-2_frame-0" "position-group") [],
     KNode.node (sampleAttrs 2 "slice-2_frame-0" "position-group") []]

def ctrlC2 : DrawController :=
  { konvaLayer := layerC2, currentPosGroupId := "slice-2_frame-0",
    nextRef := 10 }

/-- Layer root for C3: two position-group children with distinct keys. -/
def layerC3 : KNode :=
  KNode.node (sampleAttrs 0 "" "Layer")
    [KNode.node (sampleAttrs 1 "#2-2" "position-group") [],
     KNode.node (sampleAttrs 2 "#2-3" "position-group") []]

def ctrlC3 : DrawController :=
  { konvaLayer := layerC3, currentPosGroupId := "", nextRef := 10 }

/-- Attributes of the C5 witness shape: a closed 'Line'. -/
def shapeC5a : NodeAttrs :=
  { ref := 21, id := "", name := "shape", visible := true,
    className := "Line", stroke := some "#ffff80", fill := none,
    shadowColor := none, closed := true, text := "", meta := ⟨"", []⟩ }

/-- Primary shape for the C5 witness: a closed 'Line'. -/
def shapeC5 : KNode :=
  KNode.node shapeC5a []

def textC5a : NodeAttrs :=
  { ref := 23, id := "", name := "text", visible := true,
    className := "Text", stroke := none, fill := none,
    shadowColor := none, closed := false, text := "t",
    meta := ⟨"expr", []⟩ }

def textC5 : KNode :=
  KNode.node textC5a []

def labelC5a : NodeAttrs :=
  { ref := 22, id := "", name := "label", visible := true,
    className := "Label", stroke := none, fill := none,
    shadowColor := none, closed := false, text := "", meta := ⟨"", []⟩ }

def labelC5 : KNode :=
  KNode.node labelC5a [textC5]

/-- Annotation group for the C5 witness: closed polyline, no
decorations. -/
def groupC5 : KNode :=
  KNode.node (sampleAttrs 20 "g5" "ann5") [shapeC5, labelC5]

def anchorC9a : NodeAttrs :=
  { ref := 33, id := "", name := "anchor", visible := true,
    className := "Circle", stroke := some "#999", fill := none,
    shadowColor := none, closed := false, text := "", meta := ⟨"", []⟩ }

/-- An interaction anchor for the C9 witness. -/
def anchorC9 : KNode :=
  KNode.node anchorC9a []

/-- Annotation group for the C9 witness: shape, label (with text) and an
anchor that the store query must strip. -/
def groupC9 : KNode :=
  KNode.node (sampleAttrs 30 "g9" "ann9") [shapeC5, labelC5, anchorC9]

def posC9 : KNode :=
  KNode.node (sampleAttrs 31 "#0-0" "position-group") [groupC9]

def layerC9 : KNode :=
  KNode.node (sampleAttrs 32 "" "Layer") [posC9]

def ctrlC9 : DrawController :=
  { konvaLayer := layerC9, currentPosGroupId := "#0-0", nextRef := 40 }

/-- Annotation group for the C7 witness: shape plus label with text. -/
def groupC7 : KNode :=
  KNode.node (sampleAttrs 50 "g7" "ann7") [shapeC5, labelC5]

def posC7 : KNode :=
  KNode.node (sampleAttrs 51 "#0-1" "position-group") [groupC7]

def layerC7 : KNode :=
  KNode.node (sampleAttrs 52 "" "Layer") [posC7]

def ctrlC7 : DrawController :=
  { konvaLayer := layerC7, currentPosGroupId := "#0-1", nextRef := 60 }

/-- Update details for the C7 witness: new colour and new metadata with a
nonempty template. -/
def dC7 : DrawDetails :=
  { id := "g7", color := "red", meta := some ⟨"len 42 mm", []⟩ }

/-- Annotation group inside the C4 incoming scene. -/
def groupC4 : KNode :=
  KNode.node (sampleAttrs 72 "g4" "ann4") [shapeC5, labelC5]

/-- Incoming position group for C4: its id equals the active key. -/
def statePosC4 : KNode :=
  KNode.node (sampleAttrs 71 "slice-0_frame-0" "position-group") [groupC4]

def stateC4 : KNode :=
  KNode.node (sampleAttrs 70 "" "Layer") [statePosC4]

/-- C4 controller: empty live layer, active key equal to the incoming
position group's id. -/
def ctrlC4 : DrawController :=
  { konvaLayer := KNode.node (sampleAttrs 69 "" "Layer") [],
    currentPosGroupId := "slice-0_frame-0", nextRef := 80 }

-- ===================================================================
-- Theorems
-- ===================================================================

theorem KNode.name_withVisible (n : KNode) (b : Bool) :
    (n.withVisible b).name = n.name := by
  cases n; rfl

theorem KNode.id_withVisible (n : KNode) (b : Bool) :
    (n.withVisible b).id = n.id := by
  cases n; rfl

theorem KNode.visible_withVisible (n : KNode) (b : Bool) :
    (n.withVisible b).visible = b := by
  cases n; rfl

theorem isPositionNode_withVisible (n : KNode) (b : Bool) :
    isPositionNode (n.withVisible b) = isPositionNode n := by
  simp [isPositionNode, KNode.name_withVisible]

/-- The visibility pass commutes with selecting the position-group
children: mapping the pass over all children then filtering equals
filtering first then updating each survivor. -/
theorem filter_map_activate (K : String) (l : List KNode) :
    ((l.map (fun n =>
      if isPositionNode n then n.withVisible (n.id == K) else n)).filter
        isPositionNode) =
    (l.filter isPositionNode).map (fun n => n.withVisible (n.id == K)) := by
  induction l with
  | nil => rfl
  | cons a t ih =>
    cases h : isPositionNode a with
    | true => simp [h, isPositionNode_withVisible, ih]
    | false => simp [h, ih]

/-- After the visibility pass, the visible groups are exactly those whose
id equals the key. -/
theorem filter_visible_map (K : String) (P : List KNode) :
    (((P.map (fun n => n.withVisible (n.id == K))).filter
      (fun g => g.visible))) =
    (P.filter (fun n => n.id == K)).map
      (fun n => n.withVisible (n.id == K)) := by
  induction P with
  | nil => rfl
  | cons a t ih =>
    cases h : (a.id == K) with
    | true => simp [KNode.visible_withVisible, h, ih]
    | false => simp [KNode.visible_withVisible, h, ih]

/-- In a list of nodes with pairwise distinct ids, filtering by the id of
a member returns exactly that member. -/
theorem filter_id_singleton (K : String) :
    ∀ P : List KNode, (P.map KNode.id).Nodup →
    ∀ g ∈ P, g.id = K →
    P.filter (fun n => n.id == K) = [g] := by
  intro P
  induction P with
  | nil => intro _ g hg; cases hg
  | cons a t ih =>
    intro hnd g hg hid
    simp only [List.map_cons, List.nodup_cons] at hnd
    rcases hnd with ⟨hna, hnt⟩
    rcases List.mem_cons.mp hg with rfl | hgt
    · have hfil : t.filter (fun n => n.id == K) = [] := by
        rw [List.filter_eq_nil_iff]
        intro n hn hcon
        apply hna
        have : n.id = g.id := by
          have hnk : n.id = K := by simpa using hcon
          rw [hnk, hid]
        rw [← this]
        exact List.mem_map_of_mem KNode.id hn
      simp [hid, hfil]
    · have ha : (a.id == K) = false := by
        cases hc : (a.id == K) with
        | false => rfl
        | true =>
          exfalso
          apply hna
          have : a.id = g.id := by rw [beq_iff_eq.mp hc, hid]
          rw [this]
          exact List.mem_map_of_mem KNode.id hgt
      simp [ha, ih hnt g hgt hid]

/-- C1 (amended): provided at most one direct child of the layer root
carries the active key as id, and every direct child carrying that id has
role position-group, `getCurrentPosGroup` is idempotent: both calls
return the same node instance, the second call leaves the state of the
first call untouched, and afterwards exactly one direct child is a
position-group with the active key. -/
theorem getCurrentPosGroup_idempotent (c : DrawController)
    (h1 : (c.konvaLayer.children.filter
      (fun n => n.id == c.currentPosGroupId)).length ≤ 1)
    (h2 : ∀ n ∈ c.konvaLayer.children,
      n.id = c.currentPosGroupId → n.name = "position-group") :
    ∃ g : KNode,
      (c.getCurrentPosGroup).2.1 = some g ∧
      ((c.getCurrentPosGroup).1.getCurrentPosGroup).2.1 = some g ∧
      ((c.getCurrentPosGroup).1.getCurrentPosGroup).1 =
        (c.getCurrentPosGroup).1 ∧
      (((c.getCurrentPosGroup).1.getCurrentPosGroup).1.konvaLayer.children.filter
        (fun n => isPositionNode n && n.id == c.currentPosGroupId)).length
        = 1 := by
  have hlen : (c.konvaLayer.children.filter
      (fun n => n.id == c.currentPosGroupId)).length = 0 ∨
      (c.konvaLayer.children.filter
      (fun n => n.id == c.currentPosGroupId)).length = 1 := by omega
  rcases hlen with hl | hl
  · -- zero matches: the first call creates the group
    rw [List.length_eq_zero] at hl
    have hnone : ∀ n ∈ c.konvaLayer.children,
        (n.id == c.currentPosGroupId) = false := by
      intro n hn
      have := (List.filter_eq_nil_iff.mp hl) n hn
      simpa using this
    set g : KNode :=
      KNode.node (newGroupAttrs c.nextRef c.currentPosGroupId true) [] with hgdef
    have hgid : (g.id == c.currentPosGroupId) = true := by
      simp [hgdef, KNode.id, KNode.attrs, newGroupAttrs]
    have e1 : c.getCurrentPosGroup =
        (⟨c.konvaLayer.addChild g, c.currentPosGroupId, c.nextRef + 1⟩,
          some g, []) := by
      simp only [DrawController.getCurrentPosGroup, hl]
    have hchil : (c.konvaLayer.addChild g).children =
        c.konvaLayer.children ++ [g] := by
      cases hk : c.konvaLayer
      simp [KNode.addChild, KNode.withChildren, KNode.children]
    have hfil2 : ((c.konvaLayer.addChild g).children.filter
        (fun n => n.id == c.currentPosGroupId)) = [g] := by
      rw [hchil, List.filter_append, hl]
      simp [hgid]
    have e2 : (DrawController.getCurrentPosGroup
        ⟨c.konvaLayer.addChild g, c.currentPosGroupId, c.nextRef + 1⟩) =
        (⟨c.konvaLayer.addChild g, c.currentPosGroupId, c.nextRef + 1⟩,
          some g, []) := by
      simp only [DrawController.getCurrentPosGroup]
      simp only [hfil2]
    refine ⟨g, ?_, ?_, ?_, ?_⟩
    · rw [e1]
    · rw [e1]; rw [e2]
    · rw [e1]; rw [e2]
    · rw [e1]
      simp only [e2, hchil, List.filter_append]
      have hfl : (c.konvaLayer.children.filter
          (fun n => isPositionNode n && (n.id == c.currentPosGroupId))) = [] := by
        rw [List.filter_eq_nil_iff]
        intro n hn
        simp [hnone n hn]
      rw [hfl]
      simp [hgdef, isPositionNode, KNode.name, KNode.id, KNode.attrs,
        newGroupAttrs]
  · -- exactly one match: both calls return it and create nothing
    obtain ⟨g, hg⟩ := List.length_eq_one.mp hl
    have e1 : c.getCurrentPosGroup = (c, some g, []) := by
      simp only [DrawController.getCurrentPosGroup, hg]
    have hsub : (c.konvaLayer.children.filter
        (fun n => isPositionNode n && (n.id == c.currentPosGroupId))) =
        (c.konvaLayer.children.filter
        (fun n => n.id == c.currentPosGroupId)) := by
      apply List.filter_congr
      intro n hn
      cases hp : (n.id == c.currentPosGroupId) with
      | false => simp
      | true =>
        have : n.name = "position-group" := h2 n hn (by simpa using hp)
        simp [isPositionNode, this]
    exact ⟨g, by rw [e1], by simp only [e1], by simp only [e1], by
      simp only [e1, hsub, hg]; rfl⟩

/-- Witness for C1: the amended idempotence theorem applied to a concrete
layer that already holds one position-group with the active key. -/
theorem getCurrentPosGroup_idempotent_witness :
    ((ctrlC1w.konvaLayer.children.filter
      (fun n => n.id == ctrlC1w.currentPosGroupId)).length ≤ 1) ∧
    (∃ g : KNode,
      (ctrlC1w.getCurrentPosGroup).2.1 = some g ∧
      ((ctrlC1w.getCurrentPosGroup).1.getCurrentPosGroup).2.1 = some g ∧
      ((ctrlC1w.getCurrentPosGroup).1.getCurrentPosGroup).1 =
        (ctrlC1w.getCurrentPosGroup).1 ∧
      (((ctrlC1w.getCurrentPosGroup).1.getCurrentPosGroup).1.konvaLayer.children.filter
        (fun n => isPositionNode n && n.id == ctrlC1w.currentPosGroupId)).length
        = 1) :=
  ⟨by decide, getCurrentPosGroup_idempotent ctrlC1w (by decide) (by decide)⟩

/-- Counterexample for C1 as originally stated ("for every layer root"):
on a root whose only child carrying the active key is a 'shape' node, both
calls return that node, no group is created, and afterwards the root has
zero (not one) direct position-group children with the key. -/
theorem getCurrentPosGroup_idempotent_cex :
    (ctrlC1c.getCurrentPosGroup).2.1 =
      some (KNode.node (sampleAttrs 1 "slice-1_frame-0" "shape") []) ∧
    ((ctrlC1c.getCurrentPosGroup).1.getCurrentPosGroup).1 = ctrlC1c ∧
    (((ctrlC1c.getCurrentPosGroup).1.getCurrentPosGroup).1.konvaLayer.children.filter
      (fun n => isPositionNode n && n.id == ctrlC1c.currentPosGroupId)).length
      = 0 :=
  ⟨rfl, rfl, rfl⟩

/-- C2 (amended): when more than one direct child of the layer root
carries the active key as id, `getCurrentPosGroup` logs the inconsistency
warning and returns null (`none`), leaving the tree unchanged; it does
not return the first match. -/
theorem getCurrentPosGroup_duplicates (c : DrawController)
    (h : 2 ≤ (c.konvaLayer.children.filter
      (fun n => n.id == c.currentPosGroupId)).length) :
    c.getCurrentPosGroup =
      (c, none, ["Unexpected number of draw position groups."]) := by
  rcases hfil : (c.konvaLayer.children.filter
      (fun n => n.id == c.currentPosGroupId)) with _ | ⟨a, _ | ⟨b, t⟩⟩
  · rw [hfil] at h; simp at h
  · rw [hfil] at h; simp at h
  · simp only [DrawController.getCurrentPosGroup, hfil]

/-- Witness for C2 (amended): two duplicate position-groups in a concrete
layer; the call returns `none` and only logs. -/
theorem getCurrentPosGroup_duplicates_witness :
    (2 ≤ (ctrlC2.konvaLayer.children.filter
      (fun n => n.id == ctrlC2.currentPosGroupId)).length) ∧
    ctrlC2.getCurrentPosGroup =
      (ctrlC2, none, ["Unexpected number of draw position groups."]) :=
  ⟨by decide, getCurrentPosGroup_duplicates ctrlC2 (by decide)⟩

/-- Counterexample for C2 as stated: with two position-group children
carrying the active key, the call returns `none`, not the first matching
group. -/
theorem getCurrentPosGroup_duplicates_cex :
    ((layerC2.children.filter
      (fun n => isPositionNode n && n.id == "slice-2_frame-0")).length = 2) ∧
    (ctrlC2.getCurrentPosGroup).2.1 = none :=
  ⟨rfl, rfl⟩

/-- C3: after `activateDrawLayer` computes the new key, if some direct
position-group child of the layer carries that key as id, then exactly
one direct position-group child is visible and its identifier is the key;
if none carries it, every direct position-group child is invisible.
Holds for every prior state whose position-group identifiers are
pairwise distinct. -/
theorem activateDrawLayer_visibility (c : DrawController) (index : List Nat)
    (scrollIndex : Nat)
    (hnodup : ((c.konvaLayer.children.filter isPositionNode).map
      KNode.id).Nodup) :
    ((∃ g ∈ c.konvaLayer.children.filter isPositionNode,
        g.id = (c.activateDrawLayer index scrollIndex).currentPosGroupId) →
      ((((c.activateDrawLayer index scrollIndex).konvaLayer.children.filter
        isPositionNode).filter (fun g => g.visible)).map KNode.id =
        [(c.activateDrawLayer index scrollIndex).currentPosGroupId])) ∧
    ((∀ g ∈ c.konvaLayer.children.filter isPositionNode,
        g.id ≠ (c.activateDrawLayer index scrollIndex).currentPosGroupId) →
      ∀ g ∈ ((c.activateDrawLayer index scrollIndex).konvaLayer.children.filter
        isPositionNode), g.visible = false) := by
  have hc' : c.activateDrawLayer index scrollIndex =
      ⟨c.konvaLayer.withChildren (c.konvaLayer.children.map (fun n =>
        if isPositionNode n then n.withVisible
          (n.id == toStringId index
            (scrollIndex :: (List.range index.length).drop 3)) else n)),
        toStringId index (scrollIndex :: (List.range index.length).drop 3),
        c.nextRef⟩ := rfl
  rw [hc']
  have hch : ∀ (L : KNode) (cs : List KNode),
      (L.withChildren cs).children = cs := by
    intro L cs; cases L; rfl
  constructor
  · rintro ⟨g, hg, hid⟩
    simp only [hch]
    rw [filter_map_activate, filter_visible_map,
      filter_id_singleton _ _ hnodup g hg hid]
    simp [KNode.id_withVisible, hid]
  · intro hnone g hgmem
    simp only [hch] at hgmem
    rw [filter_map_activate] at hgmem
    rcases List.mem_map.mp hgmem with ⟨n, hn, rfl⟩
    rw [KNode.visible_withVisible]
    have hne : n.id ≠ toStringId index
        (scrollIndex :: (List.range index.length).drop 3) := hnone n hn
    simpa using hne

/-- Witness for C3: concrete two-group layer, activation with scroll
index 2 on a length-3 position; the distinct-ids hypothesis is discharged
by computation. -/
theorem activateDrawLayer_visibility_witness :
    (((ctrlC3.konvaLayer.children.filter isPositionNode).map
      KNode.id).Nodup) ∧
    (((∃ g ∈ ctrlC3.konvaLayer.children.filter isPositionNode,
        g.id = (ctrlC3.activateDrawLayer [0, 0, 2] 2).currentPosGroupId) →
      ((((ctrlC3.activateDrawLayer [0, 0, 2] 2).konvaLayer.children.filter
        isPositionNode).filter (fun g => g.visible)).map KNode.id =
        [(ctrlC3.activateDrawLayer [0, 0, 2] 2).currentPosGroupId])) ∧
    ((∀ g ∈ ctrlC3.konvaLayer.children.filter isPositionNode,
        g.id ≠ (ctrlC3.activateDrawLayer [0, 0, 2] 2).currentPosGroupId) →
      ∀ g ∈ ((ctrlC3.activateDrawLayer [0, 0, 2] 2).konvaLayer.children.filter
        isPositionNode), g.visible = false)) :=
  ⟨by decide, activateDrawLayer_visibility ctrlC3 [0, 0, 2] 2 (by decide)⟩

/-- Decimal digit characters never contain an underscore. -/
theorem natDecChars_ne_underscore (n : Nat) :
    ∀ c ∈ natDecChars n, c ≠ '_' := by
  rw [natDecChars]
  split
  · rename_i h
    intro c hc
    simp at hc
    subst hc
    interval_cases n <;> decide
  · intro c hc
    simp at hc
    rcases hc with h1 | h1
    · exact natDecChars_ne_underscore (n / 10) c h1
    · rename_i h
      subst h1
      have h2 : n % 10 < 10 := Nat.mod_lt _ (by omega)
      interval_cases h3 : (n % 10) <;> simp_all <;> decide
termination_by n
decreasing_by
  rename_i h
  exact Nat.div_lt_self (by omega) (by omega)

/-- `charIdx` finds the first occurrence after a clean prefix. -/
theorem charIdx_append (l1 l2 : List Char) (ch : Char)
    (h : ∀ c ∈ l1, c ≠ ch) :
    charIdx (l1 ++ ch :: l2) ch = some l1.length := by
  induction l1 with
  | nil => simp [charIdx]
  | cons a t ih =>
    have ha : (a == ch) = false := by
      have := h a (by simp)
      simpa using this
    rw [List.cons_append]
    simp only [charIdx, ha, if_neg]
    rw [ih (fun c hc => h c (by simp [hc]))]
    simp

/-- C6: for every position with a valid index-2 component, the group id
is `slice-<s>_frame-<f>` with `s` the component at index 2 and `f` the
component at index 3 when the position has length 4, else 0, and
`getPositionFromGroupId` recovers both contributing values from the id
(round trip). -/
theorem drawPositionGroupId_roundTrip (p : Point) (h : 2 < p.length) :
    getPositionFromGroupId (getDrawPositionGroupId p) =
      { sliceNumber := jsNatToString (p.get 2),
        frameNumber :=
          jsNatToString (if p.length == 4 then p.get 3 else 0) } := by
  set ds := natDecChars (p.get 2) with hds
  set df := natDecChars (if p.length == 4 then p.get 3 else 0) with hdf
  have hdata : (getDrawPositionGroupId p).data =
      ("slice-".data ++ ds) ++ '_' :: ("frame-".data ++ df) := by
    simp only [getDrawPositionGroupId, jsNatToString, String.data_append,
      ← hds, ← hdf]
    simp [List.append_assoc]
  have hclean : ∀ c ∈ "slice-".data ++ ds, c ≠ '_' := by
    intro c hc heq
    subst heq
    rcases List.mem_append.mp hc with hc1 | hc1
    · exact absurd hc1 (by decide)
    · exact natDecChars_ne_underscore _ '_' hc1 rfl
  have hidx : charIdx (getDrawPositionGroupId p).data '_' =
      some (6 + ds.length) := by
    rw [hdata, charIdx_append _ _ _ hclean]
    simp
    omega
  have hsep : jsIndexOfChar (getDrawPositionGroupId p) '_' =
      Int.ofNat (6 + ds.length) := by
    unfold jsIndexOfChar
    rw [hidx]
  have hlen : (getDrawPositionGroupId p).data.length =
      13 + ds.length + df.length := by
    rw [hdata]
    simp
    omega
  have hpre6 : ("slice-".data ++ ds).drop 6 = ds := by
    rw [show (6 : Nat) = "slice-".data.length from rfl, List.drop_left]
  have h1 : jsSubstring (getDrawPositionGroupId p) 6
      (Int.ofNat (6 + ds.length)) = ⟨ds⟩ := by
    simp only [jsSubstring]
    rw [hlen]
    have ha : ((6 : Int)).toNat = 6 := rfl
    have hb : (Int.ofNat (6 + ds.length)).toNat = 6 + ds.length := rfl
    rw [ha, hb]
    have hmina : min 6 (13 + ds.length + df.length) = 6 := by omega
    have hminb : min (6 + ds.length) (13 + ds.length + df.length) =
        6 + ds.length := by omega
    rw [hmina, hminb]
    have hmax : max 6 (6 + ds.length) = 6 + ds.length := by omega
    have hmin : min 6 (6 + ds.length) = 6 := by omega
    rw [hmax, hmin]
    rw [hdata]
    have htake : ((("slice-".data ++ ds) ++
        '_' :: ("frame-".data ++ df)).take (6 + ds.length)) =
        "slice-".data ++ ds := by
      have e : ("slice-".data ++ ds).length = 6 + ds.length := by
        simp
        omega
      rw [← e, List.take_left]
    rw [htake, hpre6]
  have h2 : jsSubstringFrom (getDrawPositionGroupId p)
      (Int.ofNat (6 + ds.length) + 7) = ⟨df⟩ := by
    simp only [jsSubstringFrom, jsSubstring]
    rw [hlen]
    have ha : (Int.ofNat (6 + ds.length) + 7).toNat = 13 + ds.length := by
      rw [Int.ofNat_eq_natCast]
      omega
    have hb : (Int.ofNat (13 + ds.length + df.length)).toNat =
        13 + ds.length + df.length := rfl
    rw [ha, hb]
    have hmina : min (13 + ds.length) (13 + ds.length + df.length) =
        13 + ds.length := by omega
    have hminb : min (13 + ds.length + df.length)
        (13 + ds.length + df.length) = 13 + ds.length + df.length := by omega
    rw [hmina, hminb]
    have hmax : max (13 + ds.length) (13 + ds.length + df.length) =
        13 + ds.length + df.length := by omega
    have hmin : min (13 + ds.length) (13 + ds.length + df.length) =
        13 + ds.length := by omega
    rw [hmax, hmin]
    have hregroup : (getDrawPositionGroupId p).data =
        (("slice-".data ++ ds) ++ ('_' :: "frame-".data)) ++ df := by
      rw [hdata]
      simp [List.append_assoc]
    have htakeall : ((getDrawPositionGroupId p).data.take
        (13 + ds.length + df.length)) = (getDrawPositionGroupId p).data := by
      rw [← hlen, List.take_length]
    rw [htakeall, hregroup]
    have e : (("slice-".data ++ ds) ++ ('_' :: "frame-".data)).length =
        13 + ds.length := by
      simp
      omega
    rw [← e, List.drop_left]
  simp only [getPositionFromGroupId]
  rw [hsep, h1, h2]
  simp [jsNatToString, hds, hdf]

/-- Witness for C6: round trip at the concrete position (7, 8, 9, 10):
slice 9, frame 10. -/
theorem drawPositionGroupId_roundTrip_witness :
    (2 < (Point.mk [7, 8, 9, 10]).length) ∧
    getPositionFromGroupId (getDrawPositionGroupId ⟨[7, 8, 9, 10]⟩) =
      { sliceNumber := jsNatToString ((Point.mk [7, 8, 9, 10]).get 2),
        frameNumber := jsNatToString
          (if (Point.mk [7, 8, 9, 10]).length == 4
            then (Point.mk [7, 8, 9, 10]).get 3 else 0) } :=
  ⟨by decide, drawPositionGroupId_roundTrip ⟨[7, 8, 9, 10]⟩ (by decide)⟩

/-- C10: `getDrawDisplayDetails` is a pure query over the scene tree: the
layer that comes out of the walk is the input layer — every node,
attribute, parent/child relation and visibility flag unchanged; no
removal is performed. -/
theorem getDrawDisplayDetails_pure (c : DrawController) :
    (c.getDrawDisplayDetails).1 = c.konvaLayer := by
  have hlist : ∀ l : List KNode, (displayDetailsList l).1 = l := by
    intro l
    induction l with
    | nil => rfl
    | cons g gs ih => simp [displayDetailsList, ih]
  have hwc : ∀ n : KNode, n.withChildren n.children = n := by
    intro n; cases n; rfl
  simp [DrawController.getDrawDisplayDetails, hlist, hwc]

/-- C5: the type classification computed by the `getDrawDisplayDetails`
loop body for any annotation group holding a primary shape, a label and
a text: a closed 'Line' is "Roi"; an open 'Line' with a first auxiliary
decoration is "Arrow"/"Protractor"/"Ruler" according to whether the
decoration's name contains 'triangle' or 'arc'; an open 'Line' without
decorations stays 'Line'; 'Rect' becomes "Rectangle"; any other class
name is kept. -/
theorem drawDetail_type_classification (position : String) (group : KNode)
    (shape : KNode) (srest : List KNode) (label : KNode) (lrest : List KNode)
    (text : KNode) (trest : List KNode)
    (hs : group.children.filter isNodeNameShape = shape :: srest)
    (hl : group.children.filter isNodeNameLabel = label :: lrest)
    (ht : label.children = text :: trest) :
    ∃ d, drawDetailOfGroup position group = some d ∧
      d.id = group.id ∧ d.position = position ∧
      d.color = shape.stroke ∧ d.meta = text.meta ∧
      d.type =
        (if shape.className = "Line" then
          (if shape.closed then "Roi"
           else
             match group.children.filter isNodeNameShapeExtra with
             | [] => "Line"
             | extra0 :: _ =>
               if jsContains extra0.name "triangle" = true then "Arrow"
               else if jsContains extra0.name "arc" = true then "Protractor"
               else "Ruler")
         else if shape.className = "Rect" then "Rectangle"
         else shape.className) := by
  simp only [drawDetailOfGroup, hs, hl, ht]
  refine ⟨_, rfl, rfl, rfl, rfl, rfl, ?_⟩
  by_cases hline : shape.className = "Line"
  · rw [hline]
    simp only [if_pos, beq_self_eq_true, if_true, reduceIte]
    by_cases hclosed : shape.closed = true
    · simp [hclosed]
    · simp only [Bool.not_eq_true] at hclosed
      rcases hex : group.children.filter isNodeNameShapeExtra with _ | ⟨e0, er⟩
      · simp [hclosed, hline]
      · by_cases htri : jsContains e0.name "triangle" = true
        · simp [hclosed, htri]
        · by_cases harc : jsContains e0.name "arc" = true
          · simp [hclosed, htri, harc]
          · simp [hclosed, htri, harc]
  · have hbeq : (shape.className == "Line") = false := by
      simpa using hline
    simp only [hbeq, Bool.false_eq_true, if_false]
    rw [if_neg hline]
    by_cases hrect : shape.className = "Rect"
    · simp [hrect]
    · have hbr : (shape.className == "Rect") = false := by simpa using hrect
      simp [hbr, hrect]

/-- Witness for C5: the classification theorem applied to a concrete
closed polyline group; the type comes out as "Roi". -/
theorem drawDetail_type_classification_witness :
    (groupC5.children.filter isNodeNameShape = shapeC5 :: []) ∧
    (groupC5.children.filter isNodeNameLabel = labelC5 :: []) ∧
    (labelC5.children = textC5 :: []) ∧
    (∃ d, drawDetailOfGroup "(3)" groupC5 = some d ∧
      d.id = groupC5.id ∧ d.position = "(3)" ∧
      d.color = shapeC5.stroke ∧ d.meta = textC5.meta ∧
      d.type =
        (if shapeC5.className = "Line" then
          (if shapeC5.closed then "Roi"
           else
             match groupC5.children.filter isNodeNameShapeExtra with
             | [] => "Line"
             | extra0 :: _ =>
               if jsContains extra0.name "triangle" = true then "Arrow"
               else if jsContains extra0.name "arc" = true then "Protractor"
               else "Ruler")
         else if shapeC5.className = "Rect" then "Rectangle"
         else shapeC5.className)) :=
  ⟨by rfl, by rfl, by rfl,
    drawDetail_type_classification "(3)" groupC5 shapeC5 [] labelC5 []
      textC5 [] (by rfl) (by rfl) (by rfl)⟩

theorem KNode.children_withChildren (n : KNode) (cs : List KNode) :
    (n.withChildren cs).children = cs := by
  cases n; rfl

theorem KNode.id_withChildren (n : KNode) (cs : List KNode) :
    (n.withChildren cs).id = n.id := by
  cases n; rfl

theorem isAnchorNode_of_isPositionNode (n : KNode)
    (h : isPositionNode n = true) : isAnchorNode n = false := by
  simp only [isPositionNode, beq_iff_eq] at h
  simp [isAnchorNode, h]

/-- Stripping the anchors leaves no anchor-named descendant anywhere. -/
theorem findAllIn_removeAllIn_anchor (l : List KNode) :
    findAllIn isAnchorNode (removeAllIn isAnchorNode l) = [] := by
  match l with
  | [] => simp [removeAllIn, findAllIn]
  | KNode.node a kids :: cs =>
    rw [removeAllIn]
    by_cases h : isAnchorNode (KNode.node a kids) = true
    · rw [if_pos h]
      exact findAllIn_removeAllIn_anchor cs
    · rw [if_neg h]
      rw [findAllIn]
      have h2 : isAnchorNode
          (KNode.node a (removeAllIn isAnchorNode kids)) = false := by
        simp only [isAnchorNode, KNode.name, KNode.attrs] at h ⊢
        simpa using h
      rw [h2]
      simp only [Bool.false_eq_true, if_false, List.nil_append]
      rw [findAllIn_removeAllIn_anchor kids, findAllIn_removeAllIn_anchor cs]
      rfl
termination_by sizeOf l

/-- Characterization of the store-details inner loop on well-formed
annotation groups: the groups come back anchor-stripped, the recorded
entries pair each group id with its first text descendant's meta, and
one warning is emitted per group whose text count differs from one. -/
theorem storeDetailsGroups_spec (gs : List KNode)
    (hanch : ∀ g ∈ gs, isAnchorNode g = false)
    (htext : ∀ g ∈ gs,
      findAllIn isTextNode (removeAllIn isAnchorNode g.children) ≠ []) :
    storeDetailsGroups gs = some (removeAllIn isAnchorNode gs,
      gs.map (fun g => (g.id, metaOfFirstText g)),
      gs.flatMap (fun g =>
        if (findAllIn isTextNode
            (removeAllIn isAnchorNode g.children)).length != 1
        then ["There should not be more than one text per shape."]
        else [])) := by
  induction gs with
  | nil => simp [storeDetailsGroups, removeAllIn]
  | cons g rest ih =>
    rcases htexts : findAllIn isTextNode
        (removeAllIn isAnchorNode g.children) with _ | ⟨t, ts⟩
    · exact absurd htexts (htext g (by simp))
    · have hbody : storeDetailOfGroup g = some
          (g.withChildren (removeAllIn isAnchorNode g.children),
            (g.id, t.meta),
            if (findAllIn isTextNode
                (removeAllIn isAnchorNode g.children)).length != 1
            then ["There should not be more than one text per shape."]
            else []) := by
        simp only [storeDetailOfGroup, KNode.children_withChildren]
        rw [htexts]
        simp [KNode.id_withChildren, htexts]
      rw [storeDetailsGroups, hbody,
        ih (fun x hx => hanch x (by simp [hx]))
          (fun x hx => htext x (by simp [hx]))]
      have hmeta : metaOfFirstText g = t.meta := by
        rw [metaOfFirstText, htexts]
      cases g with
      | node a kids =>
        have hna : isAnchorNode (KNode.node a kids) = false :=
          hanch _ (by simp)
        rw [removeAllIn]
        simp only [hna, Bool.false_eq_true, if_false, KNode.withChildren,
          KNode.children, List.map_cons, List.flatMap_cons, hmeta]

/-- Characterization of the store-details outer loop on a layer whose
children are all position groups. -/
theorem storeDetailsList_spec (pgs : List KNode)
    (hpos : ∀ pg ∈ pgs, isPositionNode pg = true)
    (hanch : ∀ pg ∈ pgs, ∀ g ∈ pg.children, isAnchorNode g = false)
    (htext : ∀ pg ∈ pgs, ∀ g ∈ pg.children,
      findAllIn isTextNode (removeAllIn isAnchorNode g.children) ≠ []) :
    storeDetailsList pgs = some (removeAllIn isAnchorNode pgs,
      pgs.flatMap (fun pg =>
        pg.children.map (fun g => (g.id, metaOfFirstText g))),
      pgs.flatMap (fun pg => pg.children.flatMap (fun g =>
        if (findAllIn isTextNode
            (removeAllIn isAnchorNode g.children)).length != 1
        then ["There should not be more than one text per shape."]
        else []))) := by
  induction pgs with
  | nil => simp [storeDetailsList, removeAllIn]
  | cons pg rest ih =>
    have hp : isPositionNode pg = true := hpos pg (by simp)
    rw [storeDetailsList, if_pos hp]
    rw [storeDetailsGroups_spec pg.children (hanch pg (by simp))
      (htext pg (by simp))]
    rw [ih (fun x hx => hpos x (by simp [hx]))
      (fun x hx g hg => hanch x (by simp [hx]) g hg)
      (fun x hx g hg => htext x (by simp [hx]) g hg)]
    cases pg with
    | node a kids =>
      have hpa : isAnchorNode (KNode.node a kids) = false :=
        isAnchorNode_of_isPositionNode _ hp
      rw [removeAllIn]
      simp only [hpa, Bool.false_eq_true, if_false, KNode.withChildren,
        KNode.children, List.flatMap_cons]

/-- C9: on a well-formed scene (all layer children are position groups,
no annotation group is anchor-named, each keeps at least one text
descendant), `getDrawStoreDetails` removes every anchor-named node from
the live tree as a side effect of the query (the resulting layer is
exactly the spec-side `stripAnchors`, which changes nothing else), it
returns the mapping from each annotation group's id to its text's meta,
no anchor survives anywhere, and the duplicate-text warning is emitted
exactly for the groups whose text count differs from one. -/
theorem getDrawStoreDetails_spec (c : DrawController)
    (hpos : ∀ pg ∈ c.konvaLayer.children, isPositionNode pg = true)
    (hanch : ∀ pg ∈ c.konvaLayer.children, ∀ g ∈ pg.children,
      isAnchorNode g = false)
    (htext : ∀ pg ∈ c.konvaLayer.children, ∀ g ∈ pg.children,
      findAllIn isTextNode (removeAllIn isAnchorNode g.children) ≠ []) :
    c.getDrawStoreDetails = some
      (⟨stripAnchors c.konvaLayer, c.currentPosGroupId, c.nextRef⟩,
        c.konvaLayer.children.flatMap (fun pg =>
          pg.children.map (fun g => (g.id, metaOfFirstText g))),
        c.konvaLayer.children.flatMap (fun pg => pg.children.flatMap (fun g =>
          if (findAllIn isTextNode
              (removeAllIn isAnchorNode g.children)).length != 1
          then ["There should not be more than one text per shape."]
          else []))) ∧
    findAllIn isAnchorNode (stripAnchors c.konvaLayer).children = [] ∧
    ((c.konvaLayer.children.flatMap (fun pg => pg.children.flatMap (fun g =>
        if (findAllIn isTextNode
            (removeAllIn isAnchorNode g.children)).length != 1
        then ["There should not be more than one text per shape."]
        else []))) = [] ↔
      ∀ pg ∈ c.konvaLayer.children, ∀ g ∈ pg.children,
        (findAllIn isTextNode
          (removeAllIn isAnchorNode g.children)).length = 1) := by
  refine ⟨?_, ?_, ?_⟩
  · rw [DrawController.getDrawStoreDetails,
      storeDetailsList_spec c.konvaLayer.children hpos hanch htext]
    rfl
  · rw [stripAnchors, KNode.children_withChildren]
    exact findAllIn_removeAllIn_anchor _
  · simp only [List.flatMap_eq_nil_iff]
    constructor
    · intro hall pg hpg g hg
      have hthis := hall pg hpg g hg
      by_cases hlen : (findAllIn isTextNode
          (removeAllIn isAnchorNode g.children)).length = 1
      · exact hlen
      · exfalso
        rw [if_pos (by simpa using hlen)] at hthis
        exact absurd hthis (by simp)
    · intro hall pg hpg g hg
      rw [if_neg (by simp [hall pg hpg g hg])]

/-- Witness for C9: the store-details theorem applied to a concrete layer
holding one position group with one annotation group that carries an
anchor; the call succeeds. -/
theorem getDrawStoreDetails_spec_witness :
    (∀ pg ∈ ctrlC9.konvaLayer.children, isPositionNode pg = true) ∧
    (∀ pg ∈ ctrlC9.konvaLayer.children, ∀ g ∈ pg.children,
      isAnchorNode g = false) ∧
    (∀ pg ∈ ctrlC9.konvaLayer.children, ∀ g ∈ pg.children,
      findAllIn isTextNode (removeAllIn isAnchorNode g.children) ≠ []) ∧
    (∃ r, ctrlC9.getDrawStoreDetails = some r) := by
  have h1 : ∀ pg ∈ ctrlC9.konvaLayer.children, isPositionNode pg = true := by
    decide
  have h2 : ∀ pg ∈ ctrlC9.konvaLayer.children, ∀ g ∈ pg.children,
      isAnchorNode g = false := by
    decide
  have h3 : ∀ pg ∈ ctrlC9.konvaLayer.children, ∀ g ∈ pg.children,
      findAllIn isTextNode (removeAllIn isAnchorNode g.children) ≠ [] := by
    intro pg hpg g hg
    simp only [ctrlC9, layerC9, KNode.children, List.mem_singleton] at hpg
    subst hpg
    simp only [posC9, KNode.children, List.mem_singleton] at hg
    subst hg
    simp [groupC9, shapeC5, labelC5, textC5, anchorC9, shapeC5a, labelC5a,
      textC5a, anchorC9a, sampleAttrs, findAllIn, removeAllIn, isAnchorNode,
      isTextNode, KNode.children, KNode.name, KNode.attrs]
  exact ⟨h1, h2, h3, ⟨_, (getDrawStoreDetails_spec ctrlC9 h1 h2 h3).1⟩⟩

theorem KNode.name_withChildren (n : KNode) (cs : List KNode) :
    (n.withChildren cs).name = n.name := by
  cases n; rfl

theorem KNode.name_withStroke (n : KNode) (v : Option String) :
    (n.withStroke v).name = n.name := by
  cases n; rfl

theorem KNode.name_withFill (n : KNode) (v : Option String) :
    (n.withFill v).name = n.name := by
  cases n; rfl

theorem KNode.className_withFill (n : KNode) (v : Option String) :
    (n.withFill v).className = n.className := by
  cases n; rfl

theorem KNode.className_withShadowColor (n : KNode) (v : Option String) :
    (n.withShadowColor v).className = n.className := by
  cases n; rfl

theorem KNode.className_withMeta (n : KNode) (m : AnnMeta) :
    (n.withMeta m).className = n.className := by
  cases n; rfl

theorem KNode.className_withText (n : KNode) (t : String) :
    (n.withText t).className = n.className := by
  cases n; rfl

theorem KNode.meta_withText (n : KNode) (t : String) :
    (n.withText t).meta = n.meta := by
  cases n; rfl

theorem KNode.meta_withMeta (n : KNode) (m : AnnMeta) :
    (n.withMeta m).meta = m := by
  cases n; rfl

theorem KNode.text_withText (n : KNode) (t : String) :
    (n.withText t).text = t := by
  cases n; rfl

theorem KNode.id_withChildren' (n : KNode) (cs : List KNode) :
    (n.withChildren cs).id = n.id := by
  cases n; rfl

theorem name_updateDrawColorChild (d : DrawDetails) (n : KNode) :
    (updateDrawColorChild d n).name = n.name := by
  unfold updateDrawColorChild
  split_ifs <;> simp [KNode.name_withStroke, KNode.name_withFill]

theorem updateDrawColorChild_label (d : DrawDetails) (n : KNode)
    (h : isNodeNameLabel n = true) : updateDrawColorChild d n = n := by
  have hn : n.name = "label" := by simpa [isNodeNameLabel] using h
  have h1 : isNodeNameShape n = false := by simp [isNodeNameShape, hn]
  have h2 : isNodeNameShapeExtra n = false := by
    simp only [isNodeNameShapeExtra, hn]
    decide
  simp [updateDrawColorChild, h1, h2]

theorem name_updateLabelNode (d : DrawDetails) (label : KNode) :
    (updateLabelNode d label).name = label.name := by
  unfold updateLabelNode
  simp [KNode.name_withVisible, KNode.name_withChildren]

theorem className_updateLabelKidMap (d : DrawDetails) (shadow : String)
    (k : KNode) :
    (updateLabelKidMap d shadow k).className = k.className := by
  unfold updateLabelKidMap
  by_cases hc : ((k.withFill (some d.color)).className == "Text") = true
  · cases hm : d.meta
    · simp only [hc, if_true]
      rw [KNode.className_withShadowColor, KNode.className_withFill]
    · simp only [hc, if_true]
      rw [KNode.className_withText, KNode.className_withMeta,
        KNode.className_withShadowColor, KNode.className_withFill]
  · simp only []
    rw [if_neg hc]
    exact KNode.className_withFill k _

/-- A node found by `findOneIn` satisfies the predicate. -/
theorem findOneIn_sat (p : KNode → Bool) (l : List KNode) (g : KNode)
    (h : findOneIn p l = some g) : p g = true := by
  match l with
  | [] => rw [findOneIn] at h; exact absurd h (by simp)
  | KNode.node a kids :: cs =>
    rw [findOneIn] at h
    by_cases hp : p (KNode.node a kids) = true
    · rw [if_pos hp] at h
      have hg := Option.some.inj h
      rw [← hg]
      exact hp
    · rw [if_neg hp] at h
      cases hk : findOneIn p kids with
      | some r =>
        rw [hk] at h
        have hg := Option.some.inj h
        rw [← hg]
        exact findOneIn_sat p kids r hk
      | none =>
        rw [hk] at h
        exact findOneIn_sat p cs g h
termination_by sizeOf l

/-- When nothing matches, the first-match update is the identity. -/
theorem updateFirstIn_none (p : KNode → Bool) (f : KNode → Option KNode)
    (l : List KNode) (h : findOneIn p l = none) :
    updateFirstIn p f l = some (l, false) := by
  match l with
  | [] => rw [updateFirstIn]
  | KNode.node a kids :: cs =>
    rw [findOneIn] at h
    by_cases hp : p (KNode.node a kids) = true
    · rw [if_pos hp] at h
      exact absurd h (by simp)
    · rw [if_neg hp] at h
      cases hk : findOneIn p kids with
      | some r => rw [hk] at h; exact absurd h (by simp)
      | none =>
        rw [hk] at h
        rw [updateFirstIn, if_neg hp, updateFirstIn_none p f kids hk,
          updateFirstIn_none p f cs h]
termination_by sizeOf l

/-- The first-match update acts on exactly the node `findOneIn` locates:
when the mutation fails, the whole update fails; when it yields `g1`
(still matching), the update flags success and `g1` is found at the same
place afterwards.  Requires the predicate not to look at children (true
for the id test). -/
theorem updateFirstIn_of_findOneIn (p : KNode → Bool)
    (f : KNode → Option KNode)
    (hattr : ∀ (a : NodeAttrs) (k1 k2 : List KNode),
      p (KNode.node a k1) = p (KNode.node a k2))
    (l : List KNode) (g : KNode) (hfind : findOneIn p l = some g) :
    (f g = none → updateFirstIn p f l = none) ∧
    (∀ g1, f g = some g1 → p g1 = true →
      ∃ l1, updateFirstIn p f l = some (l1, true) ∧
        findOneIn p l1 = some g1) := by
  match l with
  | [] => rw [findOneIn] at hfind; exact absurd hfind (by simp)
  | KNode.node a kids :: cs =>
    rw [findOneIn] at hfind
    by_cases hp : p (KNode.node a kids) = true
    · rw [if_pos hp] at hfind
      have hg := Option.some.inj hfind
      constructor
      · intro hf
        rw [← hg] at hf
        rw [updateFirstIn, if_pos hp, hf]
      · intro g1 hf hpg1
        rw [← hg] at hf
        refine ⟨g1 :: cs, ?_, ?_⟩
        · rw [updateFirstIn, if_pos hp, hf]
        · cases g1 with
          | node b ks => rw [findOneIn, if_pos hpg1]
    · rw [if_neg hp] at hfind
      cases hk : findOneIn p kids with
      | some r =>
        rw [hk] at hfind
        have hrg := Option.some.inj hfind
        subst hrg
        have ih := updateFirstIn_of_findOneIn p f hattr kids r hk
        constructor
        · intro hf
          rw [updateFirstIn, if_neg hp, ih.1 hf]
        · intro g1 hf hpg1
          obtain ⟨kids1, hupd, hfind1⟩ := ih.2 g1 hf hpg1
          refine ⟨KNode.node a kids1 :: cs, ?_, ?_⟩
          · rw [updateFirstIn, if_neg hp, hupd]
          · rw [findOneIn]
            have hp1 : ¬p (KNode.node a kids1) = true := by
              rw [hattr a kids1 kids]
              exact hp
            rw [if_neg hp1, hfind1]
      | none =>
        rw [hk] at hfind
        have ih := updateFirstIn_of_findOneIn p f hattr cs g hfind
        constructor
        · intro hf
          rw [updateFirstIn, if_neg hp, updateFirstIn_none p f kids hk,
            ih.1 hf]
        · intro g1 hf hpg1
          obtain ⟨cs1, hupd, hfind1⟩ := ih.2 g1 hf hpg1
          refine ⟨KNode.node a kids :: cs1, ?_, ?_⟩
          · rw [updateFirstIn, if_neg hp, updateFirstIn_none p f kids hk,
              hupd]
          · rw [findOneIn, if_neg hp, hk, hfind1]
termination_by sizeOf l

/-- Filtering commutes with mapping a predicate-preserving function. -/
theorem filter_map_comm_pred (p : KNode → Bool) (h : KNode → KNode)
    (hph : ∀ n, p (h n) = p n) (l : List KNode) :
    (l.map h).filter p = (l.filter p).map h := by
  induction l with
  | nil => rfl
  | cons a t ih =>
    cases hpa : p a with
    | true => simp [List.filter_cons, hph, hpa, ih]
    | false => simp [List.filter_cons, hph, hpa, ih]

/-- The shallow first-match update hits the head of the filtered list. -/
theorem updateFirstShallow_filter (p : KNode → Bool) (f : KNode → KNode)
    (hpf : ∀ x, p x = true → p (f x) = true) :
    ∀ (l : List KNode) (x : KNode) (xs : List KNode), l.filter p = x :: xs →
    (updateFirstShallow p f l).2 = true ∧
    (updateFirstShallow p f l).1.filter p = f x :: xs := by
  intro l
  induction l with
  | nil => intro x xs h; simp at h
  | cons a t ih =>
    intro x xs h
    cases hpa : p a with
    | true =>
      rw [List.filter_cons_of_pos hpa] at h
      have hax := List.cons.inj h
      rw [updateFirstShallow, if_pos hpa]
      constructor
      · rfl
      · rw [← hax.1, ← hax.2]
        simp only [List.filter_cons_of_pos (hpf a hpa)]
    | false =>
      rw [List.filter_cons_of_neg (by simp [hpa])] at h
      obtain ⟨h2, h1⟩ := ih x xs h
      rw [updateFirstShallow, if_neg (by simp [hpa])]
      constructor
      · exact h2
      · simp only [List.filter_cons_of_neg (by simp [hpa] : ¬p a = true), h1]

theorem KNode.children_withVisible (n : KNode) (b : Bool) :
    (n.withVisible b).children = n.children := by
  cases n; rfl

/-- Characterization of the label-children fold: the kids come out mapped
one by one and the pending visibility flag is set when new meta met a
text kid. -/
theorem updateLabelKid_fold (d : DrawDetails) (shadow : String) :
    ∀ (kids : List KNode) (init : List KNode) (v0 : Option Bool),
    kids.foldl (updateLabelKid d shadow) (init, v0) =
      (init ++ kids.map (updateLabelKidMap d shadow),
        match d.meta with
        | some m =>
          if kids.any (fun k => k.className == "Text")
          then some (m.textExpr.length != 0) else v0
        | none => v0) := by
  intro kids
  induction kids with
  | nil =>
    intro init v0
    cases hm : d.meta <;> simp [hm]
  | cons k rest ih =>
    intro init v0
    rw [List.foldl_cons]
    by_cases hc : ((k.withFill (some d.color)).className == "Text") = true
    · have hck : (k.className == "Text") = true := by
        rw [← KNode.className_withFill k (some d.color)]
        exact hc
      cases hm : d.meta with
      | some m =>
        have hstep : updateLabelKid d shadow (init, v0) k =
            (init ++ [updateLabelKidMap d shadow k],
              some (m.textExpr.length != 0)) := by
          simp [updateLabelKid, updateLabelKidMap, hc, hm]
        rw [hstep, ih, hm]
        simp [List.any_cons, hck, List.append_assoc]
      | none =>
        have hstep : updateLabelKid d shadow (init, v0) k =
            (init ++ [updateLabelKidMap d shadow k], v0) := by
          simp [updateLabelKid, updateLabelKidMap, hc, hm]
        rw [hstep, ih, hm]
        simp [List.append_assoc]
    · have hck : (k.className == "Text") = false := by
        rw [← KNode.className_withFill k (some d.color)]
        simpa using hc
      have hstep : updateLabelKid d shadow (init, v0) k =
          (init ++ [updateLabelKidMap d shadow k], v0) := by
        simp [updateLabelKid, updateLabelKidMap, hc]
      rw [hstep, ih]
      cases hm : d.meta <;>
        simp [hm, List.any_cons, hck, List.append_assoc]

/-- The label update in closed form: children mapped kid-wise, visibility
overridden exactly when new meta met a text kid. -/
theorem updateLabelNode_spec (d : DrawDetails) (label : KNode) :
    updateLabelNode d label =
      (label.withChildren (label.children.map
        (updateLabelKidMap d (getShadowColour d.color)))).withVisible
        (match d.meta with
         | some m =>
           if label.children.any (fun k => k.className == "Text")
           then (m.textExpr.length != 0) else label.visible
         | none => label.visible) := by
  simp only [updateLabelNode]
  rw [updateLabelKid_fold]
  cases hm : d.meta with
  | none => simp
  | some m =>
    by_cases hany :
        label.children.any (fun k => k.className == "Text") = true
    · simp [hany]
    · simp [hany]

/-- C7: when `updateDraw` is called with details carrying new metadata,
for a group that exists (first id match in the tree) whose label has a
text child, the call succeeds, the updated group is installed at the same
place, every text kid of its label carries the new meta and the text
re-expanded from template and quantification, and the label is visible
exactly when the new `textExpr` is nonempty; when the details carry no
meta, the label's visibility is unchanged. -/
theorem updateDraw_label_visibility (c : DrawController) (d : DrawDetails)
    (g label : KNode) (lrest : List KNode)
    (hfind : findOneIn (fun n => n.id == d.id) c.konvaLayer.children = some g)
    (hlab : g.children.filter isNodeNameLabel = label :: lrest)
    (htextkid : label.children.any (fun k => k.className == "Text") = true) :
    ∃ g1, updateGroup d g = some g1 ∧
      (∃ c1, c.updateDraw d = some (c1, []) ∧
        findOneIn (fun n => n.id == d.id) c1.konvaLayer.children = some g1) ∧
      ∃ label1 lrest1,
        g1.children.filter isNodeNameLabel = label1 :: lrest1 ∧
        (∀ m, d.meta = some m →
          label1.visible = (m.textExpr.length != 0) ∧
          ∀ k ∈ label1.children, k.className = "Text" →
            k.meta = m ∧ k.text = replaceFlags m.textExpr m.quantification) ∧
        (d.meta = none → label1.visible = label.visible) := by
  have hlabp : isNodeNameLabel label = true := by
    have hmem : label ∈ g.children.filter isNodeNameLabel := by
      rw [hlab]; simp
    exact List.of_mem_filter hmem
  have hcol : (g.children.map (updateDrawColorChild d)).filter
      isNodeNameLabel = label :: lrest.map (updateDrawColorChild d) := by
    rw [filter_map_comm_pred isNodeNameLabel (updateDrawColorChild d)
      (fun n => by simp [isNodeNameLabel, name_updateDrawColorChild]), hlab,
      List.map_cons, updateDrawColorChild_label d label hlabp]
  have hpf : ∀ x, isNodeNameLabel x = true →
      isNodeNameLabel (updateLabelNode d x) = true := by
    intro x hx
    simpa [isNodeNameLabel, name_updateLabelNode] using hx
  obtain ⟨hflag, hfilt⟩ := updateFirstShallow_filter isNodeNameLabel
    (updateLabelNode d) hpf (g.children.map (updateDrawColorChild d))
    label (lrest.map (updateDrawColorChild d)) hcol
  rcases hfs : updateFirstShallow isNodeNameLabel (updateLabelNode d)
      (g.children.map (updateDrawColorChild d)) with ⟨cs1, fl⟩
  rw [hfs] at hflag hfilt
  simp only [] at hflag hfilt
  subst hflag
  have hug : updateGroup d g = some (g.withChildren cs1) := by
    simp only [updateGroup, hfs]
  have hpg1 : ((g.withChildren cs1).id == d.id) = true := by
    rw [KNode.id_withChildren]
    exact findOneIn_sat _ _ _ hfind
  have hattr : ∀ (a : NodeAttrs) (k1 k2 : List KNode),
      ((KNode.node a k1).id == d.id) = ((KNode.node a k2).id == d.id) := by
    intro a k1 k2
    simp [KNode.id, KNode.attrs]
  obtain ⟨l1, hupd, hfind1⟩ :=
    (updateFirstIn_of_findOneIn (fun n => n.id == d.id) (updateGroup d)
      hattr c.konvaLayer.children g hfind).2 (g.withChildren cs1) hug hpg1
  refine ⟨g.withChildren cs1, hug, ?_, ?_⟩
  · refine ⟨⟨c.konvaLayer.withChildren l1, c.currentPosGroupId, c.nextRef⟩,
      ?_, ?_⟩
    · simp only [DrawController.updateDraw, hupd]
    · simpa [KNode.children_withChildren] using hfind1
  · refine ⟨updateLabelNode d label,
      lrest.map (updateDrawColorChild d), ?_, ?_, ?_⟩
    · rw [KNode.children_withChildren]
      exact hfilt
    · intro m hm
      constructor
      · rw [updateLabelNode_spec, KNode.visible_withVisible, hm]
        simp [htextkid]
      · intro k hk hktext
        rw [updateLabelNode_spec, KNode.children_withVisible,
          KNode.children_withChildren] at hk
        rcases List.mem_map.mp hk with ⟨k0, hk0mem, rfl⟩
        have hk0c : (k0.className == "Text") = true := by
          have := className_updateLabelKidMap d (getShadowColour d.color) k0
          rw [← this]
          simp [hktext]
        have hc : ((k0.withFill (some d.color)).className == "Text")
            = true := by
          rw [KNode.className_withFill]
          exact hk0c
        constructor
        · simp [updateLabelKidMap, hc, hm, KNode.meta_withText,
            KNode.meta_withMeta]
        · simp [updateLabelKidMap, hc, hm, KNode.text_withText]
    · intro hm
      rw [updateLabelNode_spec, KNode.visible_withVisible, hm]

/-- Witness for C7: the update theorem applied to a concrete layer and
details with new metadata; the call succeeds. -/
theorem updateDraw_label_visibility_witness :
    (findOneIn (fun n => n.id == dC7.id) ctrlC7.konvaLayer.children
      = some groupC7) ∧
    (groupC7.children.filter isNodeNameLabel = labelC5 :: []) ∧
    (labelC5.children.any (fun k => k.className == "Text") = true) ∧
    (∃ g1, updateGroup dC7 groupC7 = some g1 ∧
      ∃ c1, ctrlC7.updateDraw dC7 = some (c1, [])) := by
  have h1 : findOneIn (fun n => n.id == dC7.id) ctrlC7.konvaLayer.children
      = some groupC7 := by
    simp [ctrlC7, layerC7, posC7, groupC7, dC7, findOneIn, KNode.id,
      KNode.attrs, KNode.children, sampleAttrs]
  have h2 : groupC7.children.filter isNodeNameLabel = labelC5 :: [] := by
    rfl
  have h3 : labelC5.children.any (fun k => k.className == "Text")
      = true := by
    rfl
  obtain ⟨g1, hg1, ⟨c1, hc1, -⟩, -⟩ :=
    updateDraw_label_visibility ctrlC7 dC7 groupC7 labelC5 [] h1 h2 h3
  exact ⟨h1, h2, h3, ⟨g1, hg1, ⟨c1, hc1⟩⟩⟩

/-- Deleting the head child strictly shrinks the children collection. -/
theorem deleteDrawGroup_head_length (c : DrawController) (g : KNode)
    (tail : List KNode) (h : c.konvaLayer.children = g :: tail) :
    (c.deleteDrawGroup g).konvaLayer.children.length <
      c.konvaLayer.children.length := by
  cases g with
  | node a kids =>
    cases hl : c.konvaLayer with
    | node la lkids =>
      rw [hl] at h
      simp only [KNode.children] at h
      simp [DrawController.deleteDrawGroup, deleteGroupCommandExecute,
        hl, KNode.children, KNode.withChildren, removeFirstIn, h,
        KNode.ref, KNode.attrs]

/-- After `deleteDraws` the layer root has no children left at all. -/
theorem deleteDraws_children_nil (c : DrawController) :
    (DrawController.deleteDraws c).konvaLayer.children = [] := by
  rw [DrawController.deleteDraws]
  split
  · rename_i h
    exact h
  · exact deleteDraws_children_nil _
termination_by c.konvaLayer.children.length
decreasing_by
  exact deleteDrawGroup_head_length c _ _ (by assumption)

/-- C8: for every tree state, after `deleteDraws` returns (callbacks are
external effects that do not re-add nodes), zero annotation groups remain
under the layer root: the loop deletes the first remaining top-level
group until the live children collection is empty, so no top-level group
and hence no annotation group inside one survives, regardless of the
original order. -/
theorem deleteDraws_no_groups (c : DrawController) :
    (c.deleteDraws).konvaLayer.children = [] ∧
    ((c.deleteDraws).konvaLayer.children.flatMap KNode.children) = [] := by
  refine ⟨deleteDraws_children_nil c, ?_⟩
  rw [deleteDraws_children_nil c]
  rfl

theorem KNode.children_addChild (n : KNode) (c : KNode) :
    (n.addChild c).children = n.children ++ [c] := by
  cases n; rfl

/-- C4 (amended): `setDrawings` does not preserve the visible-iff-active
invariant: a position group it creates is always created with
`visible: false`, even when its identifier equals the active position
key; the invariant is only re-established by a later
`activateDrawLayer`. -/
theorem setDrawings_creates_invisible (c : DrawController)
    (stateLayer : KNode) (dd? : Option (List (String × AnnMeta)))
    (spg : KNode) (moved : List KNode)
    (hstate : stateLayer.children.filter isPositionNode = [spg])
    (hkids : setDrawingsKids dd? spg.children = some moved)
    (hnone : c.konvaLayer.children.filter (isNodeWithId spg.id) = []) :
    ∃ c1, c.setDrawings stateLayer dd? = some c1 ∧
      c1.currentPosGroupId = c.currentPosGroupId ∧
      c1.konvaLayer.children = c.konvaLayer.children ++
        [KNode.node (newGroupAttrs c.nextRef spg.id false) moved] ∧
      (KNode.node (newGroupAttrs c.nextRef spg.id false) moved).visible
        = false := by
  refine ⟨⟨c.konvaLayer.addChild
      (KNode.node (newGroupAttrs c.nextRef spg.id false) moved),
      c.currentPosGroupId, c.nextRef + 1⟩, ?_, rfl, ?_, rfl⟩
  · simp only [DrawController.setDrawings, hstate, setDrawingsLoop,
      setDrawingsPos, hkids, hnone]
  · rw [KNode.children_addChild]

/-- Counterexample for C4 as stated: loading a scene that creates a
position group whose identifier equals the active key leaves it
invisible — directly after `setDrawings` the layer's only child is a
position-group whose id equals the active key and whose visibility is
false, violating the visible-iff-active-key invariant. -/
theorem setDrawings_invariant_cex :
    (ctrlC4.setDrawings stateC4 none).map (fun c1 =>
      c1.konvaLayer.children.map (fun pg =>
        (isPositionNode pg, pg.id == c1.currentPosGroupId, pg.visible)))
      = some [(true, true, false)] := by
  rfl

/-- Witness for C4 (amended): the theorem applied to the concrete load in
which the created group's id equals the active key. -/
theorem setDrawings_creates_invisible_witness :
    (stateC4.children.filter isPositionNode = [statePosC4]) ∧
    (setDrawingsKids none statePosC4.children = some [groupC4]) ∧
    (ctrlC4.konvaLayer.children.filter (isNodeWithId statePosC4.id) = []) ∧
    (∃ c1, ctrlC4.setDrawings stateC4 none = some c1 ∧
      c1.currentPosGroupId = ctrlC4.currentPosGroupId ∧
      c1.konvaLayer.children = ctrlC4.konvaLayer.children ++
        [KNode.node (newGroupAttrs ctrlC4.nextRef statePosC4.id false)
          [groupC4]] ∧
      (KNode.node (newGroupAttrs ctrlC4.nextRef statePosC4.id false)
        [groupC4]).visible = false) :=
  ⟨by rfl, by rfl, by rfl,
    setDrawings_creates_invisible ctrlC4 stateC4 none statePosC4 [groupC4]
      (by rfl) (by rfl) (by rfl)⟩
